import Mathlib

/-!
A shallow embedding of the SmartMailr core pipeline from
`smart_mailr_kaggle_notebook_git_hub_code.py`: intent classification,
planning, the two executable worker steps, reply generation, quality
assurance and the action executor.

Modelling conventions:
* Python strings are lists of characters (`Str`); `str.lower` and
  `str.strip` are modelled for ASCII text, which is the only text the
  pipeline handles, and `str.splitlines` is modelled as splitting on
  the newline character, the only line separator occurring in the
  replies this code builds.
* Python dictionaries with an open key set (the per-message `context`
  and the dictionary returned by `extract_datetime_agent`) are
  association lists; dictionaries with a fixed key set (`plan`, the
  event record, `actions`) are structures.
* The wall clock is passed explicitly: `now` stands for
  `datetime.now()` and `t` for the integer part of `time.time()`.
  The date part of a `datetime` is abstracted to a day ordinal, so
  `timedelta(days=n)` is ordinal addition, exactly as in Python where
  adding whole days never changes the time of day.
* All embedded functions are total, mirroring the fact that no
  operation used by the source on well-formed input can raise.
-/

namespace SmartMailr

/-- Python strings, modelled as lists of characters. -/
abbrev Str := List Char

/-- The whitespace characters removed by `str.strip` (ASCII fragment). -/
def isWS (c : Char) : Bool :=
  c = ' ' || c = '\t' || c = '\n' || c = '\r'

/-- Removal of trailing whitespace, the right half of `str.strip`. -/
def dropEndWS (l : Str) : Str :=
  (l.reverse.dropWhile isWS).reverse

/-- Python `str.strip()`. -/
def pyStrip (l : Str) : Str :=
  dropEndWS (l.dropWhile isWS)

/-- Python `str.lower()` on ASCII text. -/
def strLower (s : Str) : Str := s.map Char.toLower

/-- Python substring containment, `needle in hay`. -/
def pyIn (needle : Str) : Str → Bool
  | [] => needle.isEmpty
  | c :: t => needle.isPrefixOf (c :: t) || pyIn needle t

/-- Python `str.splitlines()` for text whose line separator is `'\n'`.
On the empty string this gives `[[]]` where Python gives `[]`; the blank
line is dropped again by the filter inside `qa_agent`, which is the only
caller. -/
def splitLines : Str → List Str
  | [] => [[]]
  | c :: t =>
    if c = '\n' then [] :: splitLines t
    else
      match splitLines t with
      | [] => [[c]]
      | l :: ls => (c :: l) :: ls

/-- Python `"\n".join`. -/
def joinNL : List Str → Str
  | [] => []
  | l :: ls =>
    match ls with
    | [] => l
    | _ :: _ => l ++ '\n' :: joinNL ls

/-- The line normalisation inside `qa_agent`:
`"\n".join(line.strip() for line in text.splitlines() if line.strip())`. -/
def normalizeText (s : Str) : Str :=
  joinNL (((splitLines s).map pyStrip).filter (fun l => !l.isEmpty))

/-- The closing signature `qa_agent` checks for and appends. -/
def signature : Str := "Best,\nSmartMailr".data

/-- `qa_agent`: tidy whitespace and ensure the polite closing. -/
def qa_agent (text : Str) : Str :=
  let txt := normalizeText text
  if pyIn "Best,\nSmartMailr".data txt then txt
  else txt ++ "\n\nBest,\nSmartMailr".data

/-- A Python `datetime`; the date part is a day ordinal (days since the
epoch), the time part is kept in separate fields as in Python. -/
structure PyDateTime where
  days : Nat
  hour : Nat
  minute : Nat
  second : Nat
  microsecond : Nat
deriving DecidableEq

/-- `dt + timedelta(days=n)`. -/
def addDays (dt : PyDateTime) (n : Nat) : PyDateTime :=
  ⟨dt.days + n, dt.hour, dt.minute, dt.second, dt.microsecond⟩

/-- `dt.replace(hour=h, minute=m, second=s, microsecond=us)`. -/
def replaceTime (dt : PyDateTime) (h m s us : Nat) : PyDateTime :=
  ⟨dt.days, h, m, s, us⟩

/-- One decimal digit as a character. -/
def digitChar (n : Nat) : Char :=
  match n with
  | 0 => '0' | 1 => '1' | 2 => '2' | 3 => '3' | 4 => '4'
  | 5 => '5' | 6 => '6' | 7 => '7' | 8 => '8' | _ => '9'

/-- Decimal digits of a natural number, most significant first, with
explicit fuel so that the kernel can evaluate the definition. -/
def natDigitsGo : Nat → Nat → List Char → List Char
  | 0, _, acc => acc
  | fuel + 1, n, acc =>
    if n < 10 then digitChar n :: acc
    else natDigitsGo fuel (n / 10) (digitChar (n % 10) :: acc)

/-- Python `str(n)` for a natural number. -/
def natRepr (n : Nat) : Str := natDigitsGo (n + 1) n []

/-- Zero padding to two digits, as `strftime` does for
`%m`, `%d`, `%I` and `%M`. -/
def pad2 (n : Nat) : Str := if n < 10 then '0' :: natRepr n else natRepr n

/-- Gregorian civil date `(year, month, day)` of a day ordinal. -/
def civilFromDays (z : Nat) : Nat × Nat × Nat :=
  let z2 := z + 719468
  let era := z2 / 146097
  let doe := z2 % 146097
  let yoe := (doe - doe / 1460 + doe / 36524 - doe / 146096) / 365
  let y := yoe + era * 400
  let doy := doe - (365 * yoe + yoe / 4 - yoe / 100)
  let mp := (5 * doy + 2) / 153
  let d := doy - (153 * mp + 2) / 5 + 1
  let m := if mp < 10 then mp + 3 else mp - 9
  (if m ≤ 2 then y + 1 else y, m, d)

/-- `dt.strftime("%Y-%m-%d %I:%M %p")`. -/
def fmtDateTime (dt : PyDateTime) : Str :=
  let c := civilFromDays dt.days
  let h12 := if dt.hour % 12 = 0 then 12 else dt.hour % 12
  let ampm := if dt.hour < 12 then "AM".data else "PM".data
  natRepr c.1 ++ '-' ::
    (pad2 c.2.1 ++ '-' ::
      (pad2 c.2.2 ++ ' ' ::
        (pad2 h12 ++ ':' :: (pad2 dt.minute ++ ' ' :: ampm))))

/-- The `Email` dataclass. -/
structure Email where
  id : Int
  sender : Str
  subject : Str
  body : Str
  received_at : PyDateTime

/-- A plan dictionary `{"intent": ..., "steps": [...]}`. -/
structure Plan where
  intent : Str
  steps : List Str
deriving DecidableEq

/-- `intent_agent`: keyword rules over the lowercased concatenation of
subject and body. -/
def intent_agent (email : Email) : Str :=
  let text := strLower (email.subject ++ ' ' :: email.body)
  if ["meet".data, "meeting".data, "schedule".data, "call".data].any
      (fun w => pyIn w text) then
    "meeting_request".data
  else if ["please".data, "could you".data, "can you".data, "send".data].any
      (fun w => pyIn w text) then
    "info_request".data
  else if ["thanks".data, "thank you".data, "acknowledge".data].any
      (fun w => pyIn w text) then
    "acknowledgement".data
  else
    "general".data

/-- `planner_agent`: the fixed intent-to-steps table. -/
def planner_agent (email : Email) : Plan :=
  let intent := intent_agent email
  if intent = "meeting_request".data then
    ⟨intent, ["extract_datetime".data, "create_event".data, "draft_reply".data]⟩
  else if intent = "info_request".data then
    ⟨intent, ["find_answer".data, "draft_reply".data]⟩
  else if intent = "acknowledgement".data then
    ⟨intent, ["draft_ack".data]⟩
  else
    ⟨intent, ["draft_general_reply".data]⟩

/-- The per-message context (and the result dictionary of
`extract_datetime_agent`): an association list from string keys to
optional datetimes. -/
abbrev Ctx := List (Str × Option PyDateTime)

/-- `extract_datetime_agent`: naive temporal-cue scan over the lowercased
body, returning the dictionary `{"datetime": ...}`. -/
def extract_datetime_agent (email : Email) (now : PyDateTime) : Ctx :=
  let text := strLower email.body
  if pyIn "tomorrow".data text then
    [("datetime".data, some (replaceTime (addDays now 1) 16 0 0 0))]
  else if pyIn "today".data text then
    [("datetime".data, some (replaceTime now 16 0 0 0))]
  else if pyIn "4 pm".data text || pyIn "4pm".data text then
    [("datetime".data, some (replaceTime (addDays now 1) 16 0 0 0))]
  else
    [("datetime".data, none)]

/-- The event dictionary produced by `create_event_agent`. -/
structure EventRec where
  event_id : Str
  status : Str
  summary : Str
  datetime : Option PyDateTime
deriving DecidableEq

/-- `create_event_agent`; `t` is the integer part of `time.time()` at the
moment of the invocation. -/
def create_event_agent (summary : Str) (dtv : Option PyDateTime) (t : Nat) :
    EventRec :=
  ⟨"evt_".data ++ natRepr t, "created".data, summary, dtv⟩

/-- Setting one key of a Python dictionary: replace if present, else
append. -/
def setKey (ctx : Ctx) (k : Str) (v : Option PyDateTime) : Ctx :=
  match ctx with
  | [] => [(k, v)]
  | (k2, v2) :: t => if k2 = k then (k, v) :: t else (k2, v2) :: setKey t k v

/-- Python `dict.update`. -/
def dictUpdate (ctx upd : Ctx) : Ctx :=
  upd.foldl (fun c p => setKey c p.1 p.2) ctx

/-- Python `dict.get(k)`: `None` both when the key is absent and when the
stored value is `None`. -/
def ctxGet (ctx : Ctx) (k : Str) : Option PyDateTime :=
  match ctx with
  | [] => none
  | (k2, v2) :: t => if k2 = k then v2 else ctxGet t k

/-- `email.sender.split("@")[0]`. -/
def localPart (s : Str) : Str := s.takeWhile (fun c => !(c = '@'))

/-- `reply_generator_agent`: one template per intent. -/
def reply_generator_agent (email : Email) (plan : Plan) (context : Ctx) :
    Str :=
  let intent := plan.intent
  if intent = "meeting_request".data then
    let dt := ctxGet context "datetime".data
    let dtText : Str :=
      match dt with
      | some d => fmtDateTime d
      | none => "a time".data
    "Hi ".data ++ localPart email.sender ++
      ",\n\nThanks — that works for me. I\x27ve scheduled the meeting for ".data ++
      dtText ++ ".\n\nBest,\nSmartMailr".data
  else if intent = "info_request".data then
    "Hi ".data ++ localPart email.sender ++
      ",\n\nThanks for reaching out. I will gather the information and send it shortly.\n\nBest,\nSmartMailr".data
  else if intent = "acknowledgement".data then
    "Hi ".data ++ localPart email.sender ++
      ",\n\nThanks for the update — noted.\n\nBest,\nSmartMailr".data
  else
    "Hi ".data ++ localPart email.sender ++
      ",\n\nThanks for your message. I\x27ll get back to you soon.\n\nBest,\nSmartMailr".data

/-- The `actions` dictionary built by `action_executor`: the outputs of
the two executable steps (absent until the step runs), plus `reply` and
`sent`, which the executor always assigns at the end of the run. -/
structure ActionsRec where
  extract_datetime : Option Ctx
  create_event : Option EventRec
  reply : Str
  sent : Bool

/-- One iteration of the step loop in `action_executor`; steps other than
`extract_datetime` and `create_event` fall through. -/
def execStep (email : Email) (now : PyDateTime) (t : Nat)
    (st : ActionsRec × Ctx) (step : Str) : ActionsRec × Ctx :=
  if step = "extract_datetime".data then
    let dt := extract_datetime_agent email now
    (⟨some dt, st.1.create_event, st.1.reply, st.1.sent⟩, dictUpdate st.2 dt)
  else if step = "create_event".data then
    let ev := create_event_agent ("Meeting with ".data ++ email.sender)
      (ctxGet st.2 "datetime".data) t
    (⟨st.1.extract_datetime, some ev, st.1.reply, st.1.sent⟩, st.2)
  else
    st

/-- `action_executor`: run the plan steps in order against the
caller-supplied context, then build the final reply and mark it sent.
Returns the `actions` dictionary together with the final state of the
mutated context. -/
def action_executor (plan : Plan) (email : Email) (context : Ctx)
    (now : PyDateTime) (t : Nat) : ActionsRec × Ctx :=
  let st := plan.steps.foldl (execStep email now t)
    (⟨none, none, [], false⟩, context)
  let reply := qa_agent (reply_generator_agent email plan st.2)
  (⟨st.1.extract_datetime, st.1.create_event, reply, true⟩, st.2)

/-- Reading a decimal rendering back as a number. -/
def parseDigits (l : Str) : Nat :=
  l.foldl (fun a c => a * 10 + (c.toNat - 48)) 0

/-- The text the classifier scans: the lowercased concatenation of
subject and body. -/
def msgText (e : Email) : Str := strLower (e.subject ++ ' ' :: e.body)

/-- The meeting keywords of the classifier. -/
def kwMeeting : List Str := ["meet".data, "meeting".data, "schedule".data, "call".data]

/-- The information-request keywords of the classifier. -/
def kwInfo : List Str := ["please".data, "could you".data, "can you".data, "send".data]

/-- The acknowledgement keywords of the classifier. -/
def kwAck : List Str := ["thanks".data, "thank you".data, "acknowledge".data]

/-- Specification-side reading of keyword matching: some keyword of the
list occurs as a contiguous substring of the text. -/
def mentions (kws : List Str) (t : Str) : Prop := ∃ w ∈ kws, w <:+: t

/-- A concrete meeting-request message used by witnesses. -/
def wEmailMeeting : Email :=
  ⟨1, "a@b".data, "Meeting?".data, "can we meet".data, ⟨0, 0, 0, 0, 0⟩⟩

/-- A concrete info-request message used by witnesses. -/
def wEmailInfo : Email :=
  ⟨2, "a@b".data, "Docs".data, "could you forward it".data, ⟨0, 0, 0, 0, 0⟩⟩

/-- A concrete acknowledgement message used by witnesses. -/
def wEmailAck : Email :=
  ⟨3, "a@b".data, "Re".data, "thanks a lot".data, ⟨0, 0, 0, 0, 0⟩⟩

/-- A concrete keyword-free message used by witnesses. -/
def wEmailGen : Email :=
  ⟨4, "a@b".data, "Hi".data, "good morning".data, ⟨0, 0, 0, 0, 0⟩⟩

/-- A second concrete meeting-request message used by witnesses. -/
def wEmailMeeting2 : Email :=
  ⟨9, "c@d".data, "Sync".data, "lets schedule it".data, ⟨0, 0, 0, 0, 0⟩⟩

/-- A concrete clock reading used by witnesses. -/
def wNow : PyDateTime := ⟨100, 9, 30, 5, 7⟩

/-- The demo message of the end-to-end scenario. -/
def demoEmail : Email :=
  ⟨1, "alice@example.com".data, "Meeting?".data,
    "can we meet tomorrow at 4 PM to discuss the dataset?".data, ⟨0, 0, 0, 0, 0⟩⟩

/-! ## Basic facts about the string model -/

theorem pyIn_iff (n h : Str) : pyIn n h = true ↔ n <:+: h := by
  induction h with
  | nil => simp [pyIn, List.isEmpty_iff]
  | cons c t ih => simp [pyIn, ih, List.infix_cons_iff]

theorem head?_dropWhile_not {α : Type} (p : α → Bool) (l : List α) :
    ∀ c, (l.dropWhile p).head? = some c → p c = false := by
  induction l with
  | nil => intro c h; simp [List.dropWhile] at h
  | cons a t ih =>
    intro c h
    by_cases hp : p a
    · rw [List.dropWhile_cons_of_pos hp] at h
      exact ih c h
    · rw [List.dropWhile_cons_of_neg hp] at h
      simp only [List.head?_cons, Option.some.injEq] at h
      simpa [← h] using hp

theorem dropWhile_eq_self_of_head {α : Type} (p : α → Bool) (l : List α)
    (h : ∀ c, l.head? = some c → p c = false) : l.dropWhile p = l := by
  cases l with
  | nil => rfl
  | cons a t =>
    rw [List.dropWhile_cons_of_neg]
    simp [h a rfl]

theorem dropWhile_dropWhile {α : Type} (p : α → Bool) (l : List α) :
    (l.dropWhile p).dropWhile p = l.dropWhile p :=
  dropWhile_eq_self_of_head p _ (head?_dropWhile_not p l)

theorem dropEndWS_idem (l : Str) : dropEndWS (dropEndWS l) = dropEndWS l := by
  unfold dropEndWS
  rw [List.reverse_reverse, dropWhile_dropWhile]

theorem dropEndWS_isPrefix (l : Str) : dropEndWS l <+: l := by
  have h0 : l.reverse.dropWhile isWS <:+ l.reverse := List.dropWhile_suffix isWS
  have h1 : (l.reverse.dropWhile isWS).reverse <+: l.reverse.reverse :=
    List.reverse_prefix.mpr h0
  rwa [List.reverse_reverse] at h1

theorem head?_dropEndWS {l : Str} {c : Char} (h : (dropEndWS l).head? = some c) :
    l.head? = some c := by
  obtain ⟨t, ht⟩ := dropEndWS_isPrefix l
  cases hd : dropEndWS l with
  | nil => rw [hd] at h; simp at h
  | cons a s =>
    rw [hd] at h ht
    simp only [List.head?_cons, Option.some.injEq] at h
    rw [← ht, List.cons_append, List.head?_cons, h]

theorem pyStrip_idem (l : Str) : pyStrip (pyStrip l) = pyStrip l := by
  unfold pyStrip
  have h1 : (dropEndWS (l.dropWhile isWS)).dropWhile isWS
      = dropEndWS (l.dropWhile isWS) := by
    apply dropWhile_eq_self_of_head
    intro c hc
    exact head?_dropWhile_not isWS l c (head?_dropEndWS hc)
  rw [h1, dropEndWS_idem]

theorem mem_of_mem_pyStrip {l : Str} {c : Char} (h : c ∈ pyStrip l) : c ∈ l := by
  unfold pyStrip dropEndWS at h
  rw [List.mem_reverse] at h
  have h2 : c ∈ (l.dropWhile isWS).reverse := (List.dropWhile_sublist isWS).subset h
  rw [List.mem_reverse] at h2
  exact (List.dropWhile_sublist isWS).subset h2

theorem pyStrip_eq_self {l : Str}
    (h1 : ∀ c, l.head? = some c → isWS c = false)
    (h2 : ∀ c, l.getLast? = some c → isWS c = false) :
    pyStrip l = l := by
  unfold pyStrip dropEndWS
  rw [dropWhile_eq_self_of_head isWS l h1]
  rw [dropWhile_eq_self_of_head isWS l.reverse
    (by intro c hc; rw [List.head?_reverse] at hc; exact h2 c hc)]
  rw [List.reverse_reverse]

/-! ## Facts about line splitting and joining -/

theorem splitLines_ne_nil (s : Str) : splitLines s ≠ [] := by
  induction s with
  | nil => simp [splitLines]
  | cons c t ih =>
    by_cases h : c = '\n'
    · simp [splitLines, h]
    · simp only [splitLines, if_neg h]
      cases hs : splitLines t <;> simp

theorem splitLines_cons_nl (t : Str) : splitLines ('\n' :: t) = [] :: splitLines t := by
  simp [splitLines]

theorem splitLines_cons_ne {c : Char} (h : ¬ c = '\n') (t : Str) {l : Str}
    {ls : List Str} (he : splitLines t = l :: ls) :
    splitLines (c :: t) = (c :: l) :: ls := by
  simp [splitLines, h, he]

theorem splitLines_append_nl {a : Str} (ha : '\n' ∉ a) (b : Str) :
    splitLines (a ++ '\n' :: b) = a :: splitLines b := by
  induction a with
  | nil => simpa using splitLines_cons_nl b
  | cons c a2 ih =>
    have hc : ¬ c = '\n' := fun hh => ha (hh ▸ List.mem_cons_self c a2)
    have ha2 : '\n' ∉ a2 := fun hh => ha (List.mem_cons_of_mem c hh)
    rw [List.cons_append, splitLines_cons_ne hc _ (ih ha2)]

theorem splitLines_no_nl {a : Str} (ha : '\n' ∉ a) : splitLines a = [a] := by
  induction a with
  | nil => rfl
  | cons c a2 ih =>
    have hc : ¬ c = '\n' := fun hh => ha (hh ▸ List.mem_cons_self c a2)
    have ha2 : '\n' ∉ a2 := fun hh => ha (List.mem_cons_of_mem c hh)
    rw [splitLines_cons_ne hc _ (ih ha2)]

theorem no_nl_of_mem_splitLines {s l : Str} (h : l ∈ splitLines s) : '\n' ∉ l := by
  induction s generalizing l with
  | nil =>
    simp only [splitLines, List.mem_singleton] at h
    subst h; simp
  | cons c t ih =>
    by_cases hc : c = '\n'
    · subst hc
      rw [splitLines_cons_nl] at h
      rcases List.mem_cons.mp h with h1 | h2
      · subst h1; simp
      · exact ih h2
    · cases hs : splitLines t with
      | nil => exact absurd hs (splitLines_ne_nil t)
      | cons l0 ls =>
        rw [splitLines_cons_ne hc _ hs] at h
        rcases List.mem_cons.mp h with h1 | h2
        · subst h1
          intro hm
          rcases List.mem_cons.mp hm with h3 | h4
          · exact hc h3.symm
          · exact ih (hs ▸ List.mem_cons_self l0 ls) h4
        · exact ih (by rw [hs]; exact List.mem_cons_of_mem l0 h2)

theorem joinNL_cons2 (l l2 : Str) (ls : List Str) :
    joinNL (l :: l2 :: ls) = l ++ '\n' :: joinNL (l2 :: ls) := rfl

theorem splitLines_joinNL {L : List Str} (hL : L ≠ [])
    (h : ∀ l ∈ L, '\n' ∉ l) : splitLines (joinNL L) = L := by
  induction L with
  | nil => cases hL rfl
  | cons l ls ih =>
    cases ls with
    | nil => simpa [joinNL] using splitLines_no_nl (h l (List.mem_cons_self _ _))
    | cons l2 ls2 =>
      rw [joinNL_cons2, splitLines_append_nl (h l (List.mem_cons_self _ _))]
      rw [ih (by simp) (fun x hx => h x (List.mem_cons_of_mem _ hx))]

theorem normalizeText_fixed {L : List Str}
    (h1 : ∀ l ∈ L, '\n' ∉ l) (h2 : ∀ l ∈ L, pyStrip l = l)
    (h3 : ∀ l ∈ L, l.isEmpty = false) :
    normalizeText (joinNL L) = joinNL L := by
  cases L with
  | nil => rfl
  | cons l ls =>
    unfold normalizeText
    rw [splitLines_joinNL (by simp) h1]
    have hmap : (l :: ls).map pyStrip = l :: ls := by
      have := List.map_congr_left h2
      simpa using this
    rw [hmap]
    rw [List.filter_eq_self.mpr (by intro a ha; simp [h3 a ha])]

theorem normalizeText_idem (s : Str) :
    normalizeText (normalizeText s) = normalizeText s := by
  have h1 : ∀ l ∈ ((splitLines s).map pyStrip).filter (fun l => !l.isEmpty),
      '\n' ∉ l := by
    intro l hl
    obtain ⟨hm, _⟩ := List.mem_filter.mp hl
    obtain ⟨x, hx, hxl⟩ := List.mem_map.mp hm
    intro hnl
    exact (no_nl_of_mem_splitLines hx) (mem_of_mem_pyStrip (hxl ▸ hnl))
  have h2 : ∀ l ∈ ((splitLines s).map pyStrip).filter (fun l => !l.isEmpty),
      pyStrip l = l := by
    intro l hl
    obtain ⟨hm, _⟩ := List.mem_filter.mp hl
    obtain ⟨x, _, hxl⟩ := List.mem_map.mp hm
    rw [← hxl, pyStrip_idem]
  have h3 : ∀ l ∈ ((splitLines s).map pyStrip).filter (fun l => !l.isEmpty),
      l.isEmpty = false := by
    intro l hl
    have := (List.mem_filter.mp hl).2
    simpa using this
  exact normalizeText_fixed h1 h2 h3

/-! ## Facts about decimal rendering -/

theorem natDigitsGo_append (fuel : Nat) : ∀ n acc,
    natDigitsGo fuel n acc = natDigitsGo fuel n [] ++ acc := by
  induction fuel with
  | zero => intro n acc; rfl
  | succ f ih =>
    intro n acc
    by_cases h : n < 10
    · simp [natDigitsGo, h]
    · simp only [natDigitsGo, if_neg h]
      rw [ih (n / 10) (digitChar (n % 10) :: acc), ih (n / 10) [digitChar (n % 10)]]
      simp

theorem natDigitsGo_fuel : ∀ n f1 f2, n < f1 → n < f2 →
    natDigitsGo f1 n [] = natDigitsGo f2 n [] := by
  intro n
  induction n using Nat.strong_induction_on with
  | _ n ih =>
    intro f1 f2 h1 h2
    cases f1 with
    | zero => omega
    | succ f1 =>
      cases f2 with
      | zero => omega
      | succ f2 =>
        by_cases h : n < 10
        · simp [natDigitsGo, h]
        · simp only [natDigitsGo, if_neg h]
          rw [natDigitsGo_append f1, natDigitsGo_append f2]
          have hd : n / 10 < n := Nat.div_lt_self (by omega) (by omega)
          rw [ih (n / 10) hd f1 f2 (by omega) (by omega)]

theorem natRepr_lt {n : Nat} (h : n < 10) : natRepr n = [digitChar n] := by
  simp [natRepr, natDigitsGo, h]

theorem natRepr_ge {n : Nat} (h : ¬ n < 10) :
    natRepr n = natRepr (n / 10) ++ [digitChar (n % 10)] := by
  have h1 : natRepr n = natDigitsGo n (n / 10) [digitChar (n % 10)] := by
    simp only [natRepr, natDigitsGo, if_neg h]
  rw [h1, natDigitsGo_append n]
  have hd : n / 10 < n := Nat.div_lt_self (by omega) (by omega)
  rw [natDigitsGo_fuel (n / 10) n (n / 10 + 1) (by omega) (by omega)]
  rfl

theorem digitChar_toNat {n : Nat} (h : n < 10) : (digitChar n).toNat = 48 + n := by
  interval_cases n <;> rfl

theorem digitChar_ne_nl (n : Nat) : digitChar n ≠ '\n' := by
  unfold digitChar
  split <;> decide

theorem foldl_natRepr (n : Nat) : ∀ a : Nat,
    (natRepr n).foldl (fun a c => a * 10 + (c.toNat - 48)) a
      = a * 10 ^ (natRepr n).length + n := by
  induction n using Nat.strong_induction_on with
  | _ n ih =>
    intro a
    by_cases h : n < 10
    · rw [natRepr_lt h]
      simp only [List.foldl_cons, List.foldl_nil, digitChar_toNat h,
        List.length_cons, List.length_nil, zero_add, pow_one]
      omega
    · rw [natRepr_ge h]
      rw [List.foldl_append]
      rw [ih (n / 10) (Nat.div_lt_self (by omega) (by omega)) a]
      have hmod : n % 10 < 10 := Nat.mod_lt _ (by omega)
      simp only [List.foldl_cons, List.foldl_nil, digitChar_toNat hmod,
        List.length_append, List.length_cons, List.length_nil, zero_add]
      have h48 : 48 + n % 10 - 48 = n % 10 := by omega
      rw [h48, pow_succ]
      have h2 : n / 10 * 10 + n % 10 = n := by omega
      calc (a * 10 ^ (natRepr (n / 10)).length + n / 10) * 10 + n % 10
          = a * (10 ^ (natRepr (n / 10)).length * 10) + (n / 10 * 10 + n % 10) := by
            ring
        _ = a * (10 ^ (natRepr (n / 10)).length * 10) + n := by rw [h2]

theorem parseDigits_natRepr (n : Nat) : parseDigits (natRepr n) = n := by
  have h := foldl_natRepr n 0
  simpa [parseDigits] using h

theorem natRepr_inj {m n : Nat} (h : natRepr m = natRepr n) : m = n := by
  have hm := parseDigits_natRepr m
  rw [h, parseDigits_natRepr] at hm
  omega

/-! ## Claim C1: idempotence of QualityAssurance -/

/-- Claim C1, counterexample: `qa_agent` is not idempotent.  On input
`"Hello"` the first application appends the signature after a blank
line; the second application drops that blank line, so the two results
differ. -/
theorem c1_qa_not_idem_counterexample :
    qa_agent (qa_agent "Hello".data) ≠ qa_agent "Hello".data := by decide

/-- Claim C1, amended: `qa_agent` is idempotent on every input whose
whitespace-normalised form already contains the signature
`"Best,\nSmartMailr"` verbatim; when the signature has to be appended,
a second application collapses the blank line inserted before it, and
the results differ (see the counterexample). -/
theorem c1_qa_idem_on_signed (x : Str)
    (h : "Best,\nSmartMailr".data <:+: normalizeText x) :
    qa_agent (qa_agent x) = qa_agent x := by
  have hb : pyIn "Best,\nSmartMailr".data (normalizeText x) = true :=
    (pyIn_iff _ _).mpr h
  have h1 : qa_agent x = normalizeText x := by simp [qa_agent, hb]
  rw [h1]
  have h2 : normalizeText (normalizeText x) = normalizeText x :=
    normalizeText_idem x
  simp [qa_agent, h2, hb]

/-- Witness for the amended C1 at a concrete input. -/
theorem c1_qa_idem_on_signed_witness :
    qa_agent (qa_agent "Hi\n\nBest,\nSmartMailr".data) =
      qa_agent "Hi\n\nBest,\nSmartMailr".data :=
  c1_qa_idem_on_signed _ ((pyIn_iff _ _).mp (by decide))

/-! ## Claim C2: uniqueness of event identifiers -/

/-- Claim C2, counterexample: two distinct invocations of
`create_event_agent` (different summaries) that fall in the same clock
second receive identical `event_id` values, because the id is
`"evt_" + str(int(time.time()))`. -/
theorem c2_event_id_collision_counterexample :
    (create_event_agent "Meeting with alice@example.com".data none
        1700000360).event_id
      = (create_event_agent "Meeting with bob@example.com".data none
        1700000360).event_id
    ∧ "Meeting with alice@example.com".data ≠
        "Meeting with bob@example.com".data := by
  constructor
  · rfl
  · decide

/-- Claim C2, amended: event ids of two invocations are distinct
whenever the invocations observe distinct integer clock seconds; within
one clock second they collide. -/
theorem c2_event_id_inj (s1 s2 : Str) (d1 d2 : Option PyDateTime)
    (t1 t2 : Nat) (h : t1 ≠ t2) :
    (create_event_agent s1 d1 t1).event_id ≠
      (create_event_agent s2 d2 t2).event_id := by
  intro he
  simp only [create_event_agent] at he
  exact h (natRepr_inj (List.append_cancel_left he))

/-- Witness for the amended C2 at concrete clock values. -/
theorem c2_event_id_inj_witness :
    (create_event_agent "a".data none 0).event_id ≠
      (create_event_agent "b".data none 1).event_id :=
  c2_event_id_inj _ _ _ _ _ _ (by decide)

/-! ## Claims C3 and C9: the intent classifier -/

theorem any_pyIn_eq_true_iff (kws : List Str) (t : Str) :
    (kws.any fun w => pyIn w t) = true ↔ mentions kws t := by
  simp [mentions, List.any_eq_true, pyIn_iff]

theorem any_pyIn_eq_false_iff (kws : List Str) (t : Str) :
    (kws.any fun w => pyIn w t) = false ↔ ¬ mentions kws t := by
  rw [← any_pyIn_eq_true_iff]
  simp

/-- Claim C3: the classifier is total and deterministic, and obeys the
fixed first-match precedence meeting → info → acknowledgement → general
over substring hits in the lowercased concatenation of subject and
body.  (Totality and determinism hold because `intent_agent` is a total
function; the four conjuncts give the precedence.) -/
theorem c3_intent_precedence (e : Email) :
    (mentions kwMeeting (msgText e) →
      intent_agent e = "meeting_request".data)
  ∧ (¬ mentions kwMeeting (msgText e) → mentions kwInfo (msgText e) →
      intent_agent e = "info_request".data)
  ∧ (¬ mentions kwMeeting (msgText e) → ¬ mentions kwInfo (msgText e) →
      mentions kwAck (msgText e) →
      intent_agent e = "acknowledgement".data)
  ∧ (¬ mentions kwMeeting (msgText e) → ¬ mentions kwInfo (msgText e) →
      ¬ mentions kwAck (msgText e) →
      intent_agent e = "general".data) := by
  refine ⟨?_, ?_, ?_, ?_⟩
  · intro h1
    have hb : (kwMeeting.any fun w => pyIn w (msgText e)) = true :=
      (any_pyIn_eq_true_iff _ _).mpr h1
    simp only [kwMeeting, msgText] at hb
    simp [intent_agent, hb]
  · intro h1 h2
    have hb1 : (kwMeeting.any fun w => pyIn w (msgText e)) = false :=
      (any_pyIn_eq_false_iff _ _).mpr h1
    have hb2 : (kwInfo.any fun w => pyIn w (msgText e)) = true :=
      (any_pyIn_eq_true_iff _ _).mpr h2
    simp only [kwMeeting, msgText] at hb1
    simp only [kwInfo, msgText] at hb2
    simp [intent_agent, hb1, hb2]
  · intro h1 h2 h3
    have hb1 : (kwMeeting.any fun w => pyIn w (msgText e)) = false :=
      (any_pyIn_eq_false_iff _ _).mpr h1
    have hb2 : (kwInfo.any fun w => pyIn w (msgText e)) = false :=
      (any_pyIn_eq_false_iff _ _).mpr h2
    have hb3 : (kwAck.any fun w => pyIn w (msgText e)) = true :=
      (any_pyIn_eq_true_iff _ _).mpr h3
    simp only [kwMeeting, msgText] at hb1
    simp only [kwInfo, msgText] at hb2
    simp only [kwAck, msgText] at hb3
    simp [intent_agent, hb1, hb2, hb3]
  · intro h1 h2 h3
    have hb1 : (kwMeeting.any fun w => pyIn w (msgText e)) = false :=
      (any_pyIn_eq_false_iff _ _).mpr h1
    have hb2 : (kwInfo.any fun w => pyIn w (msgText e)) = false :=
      (any_pyIn_eq_false_iff _ _).mpr h2
    have hb3 : (kwAck.any fun w => pyIn w (msgText e)) = false :=
      (any_pyIn_eq_false_iff _ _).mpr h3
    simp only [kwMeeting, msgText] at hb1
    simp only [kwInfo, msgText] at hb2
    simp only [kwAck, msgText] at hb3
    simp [intent_agent, hb1, hb2, hb3]

/-- Witness for C3: one concrete message per precedence branch; the
first message contains keywords of all three categories and the meeting
category wins. -/
theorem c3_intent_precedence_witness :
    intent_agent ⟨1, "a@b".data, "Team call".data,
      "please send thanks".data, ⟨0, 0, 0, 0, 0⟩⟩ = "meeting_request".data
  ∧ intent_agent ⟨2, "a@b".data, "Question".data,
      "could you forward the report".data, ⟨0, 0, 0, 0, 0⟩⟩ = "info_request".data
  ∧ intent_agent ⟨3, "a@b".data, "Re".data,
      "thanks for the update".data, ⟨0, 0, 0, 0, 0⟩⟩ = "acknowledgement".data
  ∧ intent_agent ⟨4, "a@b".data, "Hello".data,
      "good morning".data, ⟨0, 0, 0, 0, 0⟩⟩ = "general".data := by
  refine ⟨(c3_intent_precedence _).1 ?_,
    (c3_intent_precedence _).2.1 ?_ ?_,
    (c3_intent_precedence _).2.2.1 ?_ ?_ ?_,
    (c3_intent_precedence _).2.2.2 ?_ ?_ ?_⟩
  · exact (any_pyIn_eq_true_iff _ _).mp (by decide)
  · exact (any_pyIn_eq_false_iff _ _).mp (by decide)
  · exact (any_pyIn_eq_true_iff _ _).mp (by decide)
  · exact (any_pyIn_eq_false_iff _ _).mp (by decide)
  · exact (any_pyIn_eq_false_iff _ _).mp (by decide)
  · exact (any_pyIn_eq_true_iff _ _).mp (by decide)
  · exact (any_pyIn_eq_false_iff _ _).mp (by decide)
  · exact (any_pyIn_eq_false_iff _ _).mp (by decide)
  · exact (any_pyIn_eq_false_iff _ _).mp (by decide)

/-- Claim C9: keyword matching is plain substring containment, not word
matching: any occurrence of `"call"` inside the lowercased subject+body
text, even strictly inside a longer word, classifies the message as a
meeting request. -/
theorem c9_substring_matching (idn : Int) (sender subject body : Str)
    (rcv : PyDateTime)
    (h : "call".data <:+: strLower (subject ++ ' ' :: body)) :
    intent_agent ⟨idn, sender, subject, body, rcv⟩ = "meeting_request".data := by
  have hc : pyIn "call".data (strLower (subject ++ ' ' :: body)) = true :=
    (pyIn_iff _ _).mpr h
  have hb : (["meet".data, "meeting".data, "schedule".data, "call".data].any
      fun w => pyIn w (strLower (subject ++ ' ' :: body))) = true := by
    simp [List.any_cons, List.any_nil, hc]
  simp [intent_agent, hb]

/-- Witness for C9: `"call"` occurs only inside the word
`"radically"`, yet the message is classified as a meeting request. -/
theorem c9_substring_matching_witness :
    intent_agent ⟨7, "dana@example.com".data, "Market update".data,
      "prices changed radically overnight".data, ⟨0, 0, 0, 0, 0⟩⟩ =
      "meeting_request".data :=
  c9_substring_matching _ _ _ _ _ ((pyIn_iff _ _).mp (by decide))

/-! ## Claim C6: the planner table -/

/-- Claim C6: the planner is a pure total lookup realising the fixed
table; its intent field is the classified intent, every classifier
output is covered, and equal intents give equal plans. -/
theorem c6_planner_table (e e2 : Email) :
    (planner_agent e).intent = intent_agent e
  ∧ (intent_agent e = "meeting_request".data →
      (planner_agent e).steps =
        ["extract_datetime".data, "create_event".data, "draft_reply".data])
  ∧ (intent_agent e = "info_request".data →
      (planner_agent e).steps = ["find_answer".data, "draft_reply".data])
  ∧ (intent_agent e = "acknowledgement".data →
      (planner_agent e).steps = ["draft_ack".data])
  ∧ (intent_agent e = "general".data →
      (planner_agent e).steps = ["draft_general_reply".data])
  ∧ (intent_agent e = "meeting_request".data ∨
      intent_agent e = "info_request".data ∨
      intent_agent e = "acknowledgement".data ∨
      intent_agent e = "general".data)
  ∧ (intent_agent e = intent_agent e2 → planner_agent e = planner_agent e2) := by
  refine ⟨?_, ?_, ?_, ?_, ?_, ?_, ?_⟩
  · simp only [planner_agent]
    split
    · rfl
    · split
      · rfl
      · split <;> rfl
  · intro h
    simp [planner_agent, h]
  · intro h
    have hne : ¬ ("info_request".data = "meeting_request".data) := by decide
    simp [planner_agent, h, hne]
  · intro h
    have hne1 : ¬ ("acknowledgement".data = "meeting_request".data) := by decide
    have hne2 : ¬ ("acknowledgement".data = "info_request".data) := by decide
    simp [planner_agent, h, hne1, hne2]
  · intro h
    have hne1 : ¬ ("general".data = "meeting_request".data) := by decide
    have hne2 : ¬ ("general".data = "info_request".data) := by decide
    have hne3 : ¬ ("general".data = "acknowledgement".data) := by decide
    simp [planner_agent, h, hne1, hne2, hne3]
  · simp only [intent_agent]
    split
    · exact Or.inl rfl
    · split
      · exact Or.inr (Or.inl rfl)
      · split
        · exact Or.inr (Or.inr (Or.inl rfl))
        · exact Or.inr (Or.inr (Or.inr rfl))
  · intro h
    simp [planner_agent, h]

/-- Witness for C6: the table rows at concrete messages, and
plan-equality for two different messages with the same intent. -/
theorem c6_planner_table_witness :
    (planner_agent wEmailMeeting).steps =
      ["extract_datetime".data, "create_event".data, "draft_reply".data]
  ∧ (planner_agent wEmailInfo).steps = ["find_answer".data, "draft_reply".data]
  ∧ (planner_agent wEmailAck).steps = ["draft_ack".data]
  ∧ (planner_agent wEmailGen).steps = ["draft_general_reply".data]
  ∧ planner_agent wEmailMeeting = planner_agent wEmailMeeting2 := by
  refine ⟨(c6_planner_table wEmailMeeting wEmailMeeting).2.1 ?_,
    (c6_planner_table wEmailInfo wEmailInfo).2.2.1 ?_,
    (c6_planner_table wEmailAck wEmailAck).2.2.2.1 ?_,
    (c6_planner_table wEmailGen wEmailGen).2.2.2.2.1 ?_,
    (c6_planner_table wEmailMeeting wEmailMeeting2).2.2.2.2.2.2 ?_⟩ <;> decide

/-! ## Claim C8: the executor always completes with sent = true -/

/-- Claim C8: for every plan, message, initial context and clock
reading, the executor (a total function in this embedding, matching the
absence of raising operations in the source) produces an actions record
with `sent = true`; there is no input on which it fails or leaves
`sent` unset or false. -/
theorem c8_sent_always_true (plan : Plan) (e : Email) (ctx : Ctx)
    (now : PyDateTime) (t : Nat) :
    (action_executor plan e ctx now t).1.sent = true := rfl

/-! ## Claim C4: the datetime extractor -/

theorem pyIn_eq_false_iff (n h : Str) : pyIn n h = false ↔ ¬ n <:+: h := by
  rw [← pyIn_iff]
  simp

/-- Claim C4: the extractor scans the lowercased body with the fixed
precedence tomorrow → today → "4 pm"/"4pm" → no match, resolves every
match to 16:00:00.000 on the resolved date (tomorrow and the 4 pm cues
give reference date + 1 day), always stores the result — `none` on no
match — under the single key `datetime` of the returned dictionary, and
never fails (it is a total function). -/
theorem c4_extract_datetime (e : Email) (now : PyDateTime) :
    ("tomorrow".data <:+: strLower e.body →
      extract_datetime_agent e now =
        [("datetime".data, some (replaceTime (addDays now 1) 16 0 0 0))])
  ∧ (¬ "tomorrow".data <:+: strLower e.body →
      "today".data <:+: strLower e.body →
      extract_datetime_agent e now =
        [("datetime".data, some (replaceTime now 16 0 0 0))])
  ∧ (¬ "tomorrow".data <:+: strLower e.body →
      ¬ "today".data <:+: strLower e.body →
      ("4 pm".data <:+: strLower e.body ∨ "4pm".data <:+: strLower e.body) →
      extract_datetime_agent e now =
        [("datetime".data, some (replaceTime (addDays now 1) 16 0 0 0))])
  ∧ (¬ "tomorrow".data <:+: strLower e.body →
      ¬ "today".data <:+: strLower e.body →
      ¬ "4 pm".data <:+: strLower e.body →
      ¬ "4pm".data <:+: strLower e.body →
      extract_datetime_agent e now = [("datetime".data, none)])
  ∧ (∀ d, ctxGet (extract_datetime_agent e now) "datetime".data = some d →
      d.hour = 16 ∧ d.minute = 0 ∧ d.second = 0 ∧ d.microsecond = 0) := by
  refine ⟨?_, ?_, ?_, ?_, ?_⟩
  · intro h
    have hb : pyIn "tomorrow".data (strLower e.body) = true :=
      (pyIn_iff _ _).mpr h
    simp [extract_datetime_agent, hb]
  · intro h1 h2
    have hb1 : pyIn "tomorrow".data (strLower e.body) = false :=
      (pyIn_eq_false_iff _ _).mpr h1
    have hb2 : pyIn "today".data (strLower e.body) = true :=
      (pyIn_iff _ _).mpr h2
    simp [extract_datetime_agent, hb1, hb2]
  · intro h1 h2 h3
    have hb1 : pyIn "tomorrow".data (strLower e.body) = false :=
      (pyIn_eq_false_iff _ _).mpr h1
    have hb2 : pyIn "today".data (strLower e.body) = false :=
      (pyIn_eq_false_iff _ _).mpr h2
    have hb3 : (pyIn "4 pm".data (strLower e.body) ||
        pyIn "4pm".data (strLower e.body)) = true := by
      rcases h3 with h | h <;> simp [(pyIn_iff _ _).mpr h]
    simp [extract_datetime_agent, hb1, hb2, hb3]
  · intro h1 h2 h3 h4
    have hb1 : pyIn "tomorrow".data (strLower e.body) = false :=
      (pyIn_eq_false_iff _ _).mpr h1
    have hb2 : pyIn "today".data (strLower e.body) = false :=
      (pyIn_eq_false_iff _ _).mpr h2
    have hb3 : pyIn "4 pm".data (strLower e.body) = false :=
      (pyIn_eq_false_iff _ _).mpr h3
    have hb4 : pyIn "4pm".data (strLower e.body) = false :=
      (pyIn_eq_false_iff _ _).mpr h4
    simp [extract_datetime_agent, hb1, hb2, hb3, hb4]
  · intro d hd
    simp only [extract_datetime_agent] at hd
    split at hd
    · simp [ctxGet] at hd
      subst hd
      exact ⟨rfl, rfl, rfl, rfl⟩
    · split at hd
      · simp [ctxGet] at hd
        subst hd
        exact ⟨rfl, rfl, rfl, rfl⟩
      · split at hd
        · simp [ctxGet] at hd
          subst hd
          exact ⟨rfl, rfl, rfl, rfl⟩
        · simp [ctxGet] at hd

/-- Witness for C4: each precedence branch at a concrete body, and the
16:00 property of a returned value. -/
theorem c4_extract_datetime_witness :
    extract_datetime_agent ⟨1, "a@b".data, "s".data,
        "see you Tomorrow then".data, ⟨0, 0, 0, 0, 0⟩⟩ wNow =
      [("datetime".data, some (replaceTime (addDays wNow 1) 16 0 0 0))]
  ∧ extract_datetime_agent ⟨2, "a@b".data, "s".data,
        "free today?".data, ⟨0, 0, 0, 0, 0⟩⟩ wNow =
      [("datetime".data, some (replaceTime wNow 16 0 0 0))]
  ∧ extract_datetime_agent ⟨3, "a@b".data, "s".data,
        "how about 4 PM".data, ⟨0, 0, 0, 0, 0⟩⟩ wNow =
      [("datetime".data, some (replaceTime (addDays wNow 1) 16 0 0 0))]
  ∧ extract_datetime_agent ⟨4, "a@b".data, "s".data,
        "no date here".data, ⟨0, 0, 0, 0, 0⟩⟩ wNow =
      [("datetime".data, none)]
  ∧ ((replaceTime (addDays wNow 1) 16 0 0 0).hour = 16 ∧
      (replaceTime (addDays wNow 1) 16 0 0 0).minute = 0 ∧
      (replaceTime (addDays wNow 1) 16 0 0 0).second = 0 ∧
      (replaceTime (addDays wNow 1) 16 0 0 0).microsecond = 0) := by
  refine ⟨(c4_extract_datetime _ wNow).1 ?_,
    (c4_extract_datetime _ wNow).2.1 ?_ ?_,
    (c4_extract_datetime _ wNow).2.2.1 ?_ ?_ ?_,
    (c4_extract_datetime _ wNow).2.2.2.1 ?_ ?_ ?_ ?_,
    (c4_extract_datetime ⟨1, "a@b".data, "s".data,
        "see you Tomorrow then".data, ⟨0, 0, 0, 0, 0⟩⟩ wNow).2.2.2.2 _ ?_⟩
  · exact (pyIn_iff _ _).mp (by decide)
  · exact (pyIn_eq_false_iff _ _).mp (by decide)
  · exact (pyIn_iff _ _).mp (by decide)
  · exact (pyIn_eq_false_iff _ _).mp (by decide)
  · exact (pyIn_eq_false_iff _ _).mp (by decide)
  · exact Or.inl ((pyIn_iff _ _).mp (by decide))
  · exact (pyIn_eq_false_iff _ _).mp (by decide)
  · exact (pyIn_eq_false_iff _ _).mp (by decide)
  · exact (pyIn_eq_false_iff _ _).mp (by decide)
  · exact (pyIn_eq_false_iff _ _).mp (by decide)
  · decide

/-! ## Claim C10: only the datetime key ever reaches the context -/

theorem setKey_keys {ctx : Ctx} {k : Str} {v : Option PyDateTime}
    {p : Str × Option PyDateTime} (hp : p ∈ setKey ctx k v) :
    p.1 = k ∨ p ∈ ctx := by
  induction ctx with
  | nil =>
    simp only [setKey, List.mem_singleton] at hp
    subst hp
    exact Or.inl rfl
  | cons q t ih =>
    simp only [setKey] at hp
    split at hp
    · rcases List.mem_cons.mp hp with h1 | h2
      · subst h1; exact Or.inl rfl
      · exact Or.inr (List.mem_cons_of_mem _ h2)
    · rcases List.mem_cons.mp hp with h1 | h2
      · exact Or.inr (h1 ▸ List.mem_cons_self _ _)
      · rcases ih h2 with h3 | h4
        · exact Or.inl h3
        · exact Or.inr (List.mem_cons_of_mem _ h4)

theorem extract_dict_key (e : Email) (now : PyDateTime) :
    ∃ v, extract_datetime_agent e now = [("datetime".data, v)] := by
  simp only [extract_datetime_agent]
  split
  · exact ⟨_, rfl⟩
  · split
    · exact ⟨_, rfl⟩
    · split
      · exact ⟨_, rfl⟩
      · exact ⟨_, rfl⟩

theorem execStep_ctx_keys (e : Email) (now : PyDateTime) (t : Nat)
    (st : ActionsRec × Ctx) (s : Str)
    (h : ∀ p ∈ st.2, p.1 = "datetime".data) :
    ∀ p ∈ (execStep e now t st s).2, p.1 = "datetime".data := by
  simp only [execStep]
  split
  · intro p hp
    obtain ⟨v, hv⟩ := extract_dict_key e now
    rw [hv] at hp
    have hset : dictUpdate st.2 [("datetime".data, v)] =
        setKey st.2 "datetime".data v := rfl
    rw [hset] at hp
    rcases setKey_keys hp with h1 | h2
    · exact h1
    · exact h p h2
  · split
    · intro p hp
      exact h p hp
    · exact h

theorem execSteps_ctx_keys (e : Email) (now : PyDateTime) (t : Nat) :
    ∀ (steps : List Str) (st : ActionsRec × Ctx),
      (∀ p ∈ st.2, p.1 = "datetime".data) →
      ∀ p ∈ (steps.foldl (execStep e now t) st).2, p.1 = "datetime".data := by
  intro steps
  induction steps with
  | nil => intro st h; exact h
  | cons s rest ih =>
    intro st h
    rw [List.foldl_cons]
    exact ih _ (execStep_ctx_keys e now t st s h)

theorem execSteps_ctx_const (e : Email) (now : PyDateTime) (t : Nat) :
    ∀ (steps : List Str) (st : ActionsRec × Ctx),
      "extract_datetime".data ∉ steps →
      (steps.foldl (execStep e now t) st).2 = st.2 := by
  intro steps
  induction steps with
  | nil => intro st h; rfl
  | cons s rest ih =>
    intro st h
    rw [List.foldl_cons]
    rw [ih _ (fun hm => h (List.mem_cons_of_mem _ hm))]
    have hs : ¬ s = "extract_datetime".data :=
      fun hh => h (hh ▸ List.mem_cons_self s rest)
    simp only [execStep, if_neg hs]
    split <;> rfl

/-- Claim C10: starting from the empty per-message context, the executor
only ever writes the key `datetime` (by the extract step); the
create-event output is recorded in the actions mapping but never merged
into the context, so a plan without `extract_datetime` leaves the
context empty for the whole run. -/
theorem c10_context_frame (plan : Plan) (e : Email) (now : PyDateTime)
    (t : Nat) :
    (∀ p ∈ (action_executor plan e [] now t).2, p.1 = "datetime".data)
  ∧ ("extract_datetime".data ∉ plan.steps →
      (action_executor plan e [] now t).2 = []) := by
  constructor
  · have hr : (action_executor plan e [] now t).2 =
        (plan.steps.foldl (execStep e now t)
          (⟨none, none, [], false⟩, ([] : Ctx))).2 := rfl
    rw [hr]
    apply execSteps_ctx_keys
    intro p hp
    simp at hp
  · intro h
    have hr : (action_executor plan e [] now t).2 =
        (plan.steps.foldl (execStep e now t)
          (⟨none, none, [], false⟩, ([] : Ctx))).2 := rfl
    rw [hr, execSteps_ctx_const e now t plan.steps _ h]

/-- Witness for C10: an acknowledgement plan has no extract step, and
its run leaves the context empty. -/
theorem c10_context_frame_witness :
    (action_executor (planner_agent wEmailAck) wEmailAck [] wNow 0).2 = [] :=
  (c10_context_frame _ _ _ _).2 (by decide)

/-! ## Claim C7: the reply templates -/

theorem prefix_glue3 (lp mid : Str) (hm : ",".data <+: mid) :
    ("Hi ".data ++ lp ++ ",".data) <+: ("Hi ".data ++ lp ++ mid) := by
  obtain ⟨r, hr⟩ := hm
  refine ⟨r, ?_⟩
  rw [← hr]
  simp [List.append_assoc]

theorem prefix_glue5 (lp mid dt suf : Str) (hm : ",".data <+: mid) :
    ("Hi ".data ++ lp ++ ",".data) <+:
      ("Hi ".data ++ lp ++ mid ++ dt ++ suf) := by
  obtain ⟨r, hr⟩ := hm
  refine ⟨r ++ dt ++ suf, ?_⟩
  rw [← hr]
  simp [List.append_assoc]

/-- Claim C7: every reply greets the sender by the local part of the
address (the text before the first `"@"`), every reply ends with the
fixed closing `"Best,\nSmartMailr"`, and for a meeting request with no
`datetime` in the context the reply contains the fallback phrase
`"a time"`.  The generator is a pure total function of the message, the
plan intent and the context by construction. -/
theorem c7_reply_template (e : Email) (plan : Plan) (ctx : Ctx) :
    ("Hi ".data ++ localPart e.sender ++ ",".data) <+:
      reply_generator_agent e plan ctx
  ∧ "Best,\nSmartMailr".data <:+ reply_generator_agent e plan ctx
  ∧ (plan.intent = "meeting_request".data →
      ctxGet ctx "datetime".data = none →
      "a time".data <:+: reply_generator_agent e plan ctx) := by
  refine ⟨?_, ?_, ?_⟩
  · simp only [reply_generator_agent]
    split
    · exact prefix_glue5 _ _ _ _ ⟨_, rfl⟩
    · split
      · exact prefix_glue3 _ _ ⟨_, rfl⟩
      · split
        · exact prefix_glue3 _ _ ⟨_, rfl⟩
        · exact prefix_glue3 _ _ ⟨_, rfl⟩
  · simp only [reply_generator_agent]
    split
    · exact List.IsSuffix.trans ⟨".\n\n".data, rfl⟩ (List.suffix_append _ _)
    · split
      · refine List.IsSuffix.trans ?_ (List.suffix_append _ _)
        exact ⟨",\n\nThanks for reaching out. I will gather the information and send it shortly.\n\n".data, rfl⟩
      · split
        · refine List.IsSuffix.trans ?_ (List.suffix_append _ _)
          exact ⟨",\n\nThanks for the update — noted.\n\n".data, rfl⟩
        · refine List.IsSuffix.trans ?_ (List.suffix_append _ _)
          exact ⟨",\n\nThanks for your message. I\x27ll get back to you soon.\n\n".data, rfl⟩
  · intro h1 h2
    have hr : reply_generator_agent e plan ctx =
        "Hi ".data ++ localPart e.sender ++
          ",\n\nThanks — that works for me. I\x27ve scheduled the meeting for ".data ++
          "a time".data ++ ".\n\nBest,\nSmartMailr".data := by
      simp [reply_generator_agent, h1, h2]
    rw [hr]
    exact ⟨_, _, rfl⟩

/-- Witness for C7: the meeting template with an empty context contains
the fallback phrase, greets the sender, and carries the closing. -/
theorem c7_reply_template_witness :
    "a time".data <:+:
      reply_generator_agent wEmailMeeting (planner_agent wEmailMeeting) []
  ∧ ("Hi ".data ++ localPart wEmailMeeting.sender ++ ",".data) <+:
      reply_generator_agent wEmailMeeting (planner_agent wEmailMeeting) []
  ∧ "Best,\nSmartMailr".data <:+
      reply_generator_agent wEmailMeeting (planner_agent wEmailMeeting) [] := by
  refine ⟨(c7_reply_template _ _ _).2.2 ?_ ?_,
    (c7_reply_template _ _ _).1, (c7_reply_template _ _ _).2.1⟩
  · decide
  · rfl

/-! ## Claim C5: the end-to-end meeting scenario -/

theorem mem_natDigitsGo {f n : Nat} {acc : List Char} {c : Char}
    (h : c ∈ natDigitsGo f n acc) : c ∈ acc ∨ ∃ d, c = digitChar d := by
  induction f generalizing n acc with
  | zero => exact Or.inl h
  | succ f ih =>
    simp only [natDigitsGo] at h
    split at h
    · rcases List.mem_cons.mp h with h1 | h2
      · exact Or.inr ⟨n, h1⟩
      · exact Or.inl h2
    · rcases ih h with h1 | h2
      · rcases List.mem_cons.mp h1 with h3 | h4
        · exact Or.inr ⟨n % 10, h3⟩
        · exact Or.inl h4
      · exact Or.inr h2

theorem nl_not_mem_natRepr (n : Nat) : '\n' ∉ natRepr n := by
  intro h
  rcases mem_natDigitsGo h with h1 | ⟨d, hd⟩
  · simp at h1
  · exact digitChar_ne_nl d hd.symm

theorem nl_not_mem_pad2 (n : Nat) : '\n' ∉ pad2 n := by
  intro h
  unfold pad2 at h
  split at h
  · rcases List.mem_cons.mp h with h1 | h2
    · exact absurd h1 (by decide)
    · exact nl_not_mem_natRepr n h2
  · exact nl_not_mem_natRepr n h

theorem nl_not_mem_fmt (dt : PyDateTime) : '\n' ∉ fmtDateTime dt := by
  have h6 : '\n' ∉ (if dt.hour < 12 then "AM".data else "PM".data) := by
    split <;> decide
  intro h
  simp only [fmtDateTime, List.mem_append, List.mem_cons,
    eq_false (by decide : ¬ ('\n' = '-')),
    eq_false (by decide : ¬ ('\n' = ' ')),
    eq_false (by decide : ¬ ('\n' = ':')), false_or, or_false] at h
  rcases h with h | h | h | h | h | h
  · exact nl_not_mem_natRepr _ h
  · exact nl_not_mem_pad2 _ h
  · exact nl_not_mem_pad2 _ h
  · exact nl_not_mem_pad2 _ h
  · exact nl_not_mem_pad2 _ h
  · exact h6 h

/-- Running `qa_agent` over the meeting reply for sender local part
`alice`, with an arbitrary newline-free rendering `f` of the resolved
time: the two blank lines collapse and the signature is found, so the
result is the three-line normalised reply with `f` kept intact. -/
theorem qa_meeting_reply (f : Str) (hf : '\n' ∉ f) :
    qa_agent (("Hi alice,\n\nThanks — that works for me. I\x27ve scheduled the meeting for ".data
        ++ f) ++ ".\n\nBest,\nSmartMailr".data) =
      "Hi alice,".data ++ '\n' ::
        (("Thanks — that works for me. I\x27ve scheduled the meeting for ".data
            ++ (f ++ ['.'])) ++ '\n' ::
          ("Best,".data ++ '\n' :: "SmartMailr".data)) := by
  have hA : ("Hi alice,\n\nThanks — that works for me. I\x27ve scheduled the meeting for ").data
      = "Hi alice,".data ++ '\n' ::
        ('\n' :: "Thanks — that works for me. I\x27ve scheduled the meeting for ".data) := by
    decide
  have hB : (".\n\nBest,\nSmartMailr").data
      = '.' :: ('\n' :: ('\n' :: ("Best,".data ++ '\n' :: "SmartMailr".data))) := by
    decide
  have hin : (("Hi alice,\n\nThanks — that works for me. I\x27ve scheduled the meeting for ".data
        ++ f) ++ ".\n\nBest,\nSmartMailr".data)
      = "Hi alice,".data ++ '\n' ::
          ('\n' :: (("Thanks — that works for me. I\x27ve scheduled the meeting for ".data
              ++ (f ++ ['.'])) ++ '\n' ::
            ('\n' :: ("Best,".data ++ '\n' :: "SmartMailr".data)))) := by
    rw [List.append_assoc, hA, hB]
    simp [List.append_assoc]
  have hnl2 : '\n' ∉ ("Thanks — that works for me. I\x27ve scheduled the meeting for ".data
      ++ (f ++ ['.'])) := by
    intro hm
    rcases List.mem_append.mp hm with h | h
    · exact absurd h (by decide)
    · rcases List.mem_append.mp h with h | h
      · exact hf h
      · exact absurd h (by decide)
  have hsplit : splitLines (("Hi alice,\n\nThanks — that works for me. I\x27ve scheduled the meeting for ".data
        ++ f) ++ ".\n\nBest,\nSmartMailr".data)
      = ["Hi alice,".data, [],
          "Thanks — that works for me. I\x27ve scheduled the meeting for ".data ++ (f ++ ['.']),
          [], "Best,".data, "SmartMailr".data] := by
    rw [hin]
    rw [splitLines_append_nl (by decide)]
    rw [splitLines_cons_nl]
    rw [splitLines_append_nl hnl2]
    rw [splitLines_cons_nl]
    rw [splitLines_append_nl (by decide)]
    rw [splitLines_no_nl (by decide)]
  have hstrip : pyStrip ("Thanks — that works for me. I\x27ve scheduled the meeting for ".data
      ++ (f ++ ['.']))
      = "Thanks — that works for me. I\x27ve scheduled the meeting for ".data ++ (f ++ ['.']) := by
    apply pyStrip_eq_self
    · intro c hc
      have hh : ("Thanks — that works for me. I\x27ve scheduled the meeting for ".data
          ++ (f ++ ['.'])).head? = some 'T' := rfl
      rw [hh] at hc
      have h2 : 'T' = c := by simpa using hc
      rw [← h2]
      decide
    · intro c hc
      have hh : ("Thanks — that works for me. I\x27ve scheduled the meeting for ".data
          ++ (f ++ ['.'])).getLast? = some '.' := by
        rw [← List.append_assoc]
        exact List.getLast?_concat _
      rw [hh] at hc
      have h2 : '.' = c := by simpa using hc
      rw [← h2]
      decide
  have hnorm : normalizeText (("Hi alice,\n\nThanks — that works for me. I\x27ve scheduled the meeting for ".data
        ++ f) ++ ".\n\nBest,\nSmartMailr".data)
      = "Hi alice,".data ++ '\n' ::
          (("Thanks — that works for me. I\x27ve scheduled the meeting for ".data
              ++ (f ++ ['.'])) ++ '\n' ::
            ("Best,".data ++ '\n' :: "SmartMailr".data)) := by
    unfold normalizeText
    rw [hsplit]
    simp only [List.map_cons, List.map_nil]
    rw [hstrip]
    rfl
  have hsig : pyIn "Best,\nSmartMailr".data
      (normalizeText (("Hi alice,\n\nThanks — that works for me. I\x27ve scheduled the meeting for ".data
        ++ f) ++ ".\n\nBest,\nSmartMailr".data)) = true := by
    rw [hnorm]
    apply (pyIn_iff _ _).mpr
    rw [show ("Best,\nSmartMailr").data = "Best,".data ++ '\n' :: "SmartMailr".data from by decide]
    refine ⟨"Hi alice,".data ++ '\n' ::
      (("Thanks — that works for me. I\x27ve scheduled the meeting for ".data
          ++ (f ++ ['.'])) ++ ['\n']), [], ?_⟩
    simp [List.append_assoc]
  simp only [qa_agent]
  rw [hsig]
  simp only [if_true]
  exact hnorm

/-- The reply field of the executor output, written through the step
fold, for rewriting without forcing evaluation. -/
theorem action_executor_reply (plan : Plan) (e : Email) (c : Ctx)
    (now : PyDateTime) (t : Nat) :
    (action_executor plan e c now t).1.reply
      = qa_agent (reply_generator_agent e plan
          (plan.steps.foldl (execStep e now t)
            (⟨none, none, [], false⟩, c)).2) := rfl

set_option maxHeartbeats 2000000 in
/-- Claim C5: end-to-end on the body
`"can we meet tomorrow at 4 PM to discuss the dataset?"`: the intent is
`meeting_request`; the steps are extract, create-event, draft; the
actions record and the context hold the datetime reference date + 1 day
at 16:00; an event record with an `event_id` is created; `sent` is
true; and the final reply contains the formatted rendering of that
date/time. -/
theorem c5_end_to_end (now : PyDateTime) (t : Nat) :
    planner_agent demoEmail =
      ⟨"meeting_request".data,
        ["extract_datetime".data, "create_event".data, "draft_reply".data]⟩
  ∧ (action_executor (planner_agent demoEmail) demoEmail [] now t).1.extract_datetime
      = some [("datetime".data, some (replaceTime (addDays now 1) 16 0 0 0))]
  ∧ ctxGet (action_executor (planner_agent demoEmail) demoEmail [] now t).2
      "datetime".data = some (replaceTime (addDays now 1) 16 0 0 0)
  ∧ (action_executor (planner_agent demoEmail) demoEmail [] now t).1.create_event
      = some ⟨"evt_".data ++ natRepr t, "created".data,
          "Meeting with alice@example.com".data,
          some (replaceTime (addDays now 1) 16 0 0 0)⟩
  ∧ (action_executor (planner_agent demoEmail) demoEmail [] now t).1.sent = true
  ∧ fmtDateTime (replaceTime (addDays now 1) 16 0 0 0) <:+:
      (action_executor (planner_agent demoEmail) demoEmail [] now t).1.reply := by
  refine ⟨rfl, rfl, rfl, rfl, rfl, ?_⟩
  rw [action_executor_reply]
  have hfold : ((planner_agent demoEmail).steps.foldl (execStep demoEmail now t)
      (⟨none, none, [], false⟩, ([] : Ctx))).2
      = [("datetime".data, some (replaceTime (addDays now 1) 16 0 0 0))] := rfl
  rw [hfold]
  have hgen : reply_generator_agent demoEmail (planner_agent demoEmail)
      [("datetime".data, some (replaceTime (addDays now 1) 16 0 0 0))]
      = ("Hi alice,\n\nThanks — that works for me. I\x27ve scheduled the meeting for ".data
          ++ fmtDateTime (replaceTime (addDays now 1) 16 0 0 0))
          ++ ".\n\nBest,\nSmartMailr".data := rfl
  rw [hgen, qa_meeting_reply _ (nl_not_mem_fmt _)]
  have h1 : fmtDateTime (replaceTime (addDays now 1) 16 0 0 0) <:+:
      "Thanks — that works for me. I\x27ve scheduled the meeting for ".data ++
        (fmtDateTime (replaceTime (addDays now 1) 16 0 0 0) ++ ['.']) :=
    ⟨"Thanks — that works for me. I\x27ve scheduled the meeting for ".data,
      ['.'], List.append_assoc _ _ _⟩
  have h2 : ("Thanks — that works for me. I\x27ve scheduled the meeting for ".data ++
        (fmtDateTime (replaceTime (addDays now 1) 16 0 0 0) ++ ['.'])) <:+:
      ("Thanks — that works for me. I\x27ve scheduled the meeting for ".data ++
        (fmtDateTime (replaceTime (addDays now 1) 16 0 0 0) ++ ['.'])) ++
        '\n' :: ("Best,".data ++ '\n' :: "SmartMailr".data) :=
    ⟨[], '\n' :: ("Best,".data ++ '\n' :: "SmartMailr".data),
      by rw [List.nil_append]⟩
  refine (h1.trans (h2.trans ?_))
  exact (List.IsInfix.trans (List.infix_cons (List.infix_refl _))
    (List.suffix_append _ _).isInfix)

end SmartMailr
